import Mathlib

/-!
Verification of the Progress Stream Consumer of `src/components/ProgressPanel.vue`
(repository ConvertAgent).

The component holds four reactive pieces of state (`steps`, `isProcessing`,
`isComplete`, `hasError`), a nullable `eventSource` connection reference, and
an `onmessage` handler that parses each inbound SSE frame as JSON and switches
on `data.type` over the cases `start` / `step` / `complete` / `error`.  A
parse failure is caught and only logged.  The `complete` case schedules a
delayed `eventSource.close()` via `setTimeout(..., 3000)`; the `error` case
closes immediately; `reset()` clears the four state pieces only.

The embedding below mirrors that code: the reactive state together with the
connection bookkeeping (whether the `eventSource` reference is non-null, how
many times `close()` has been invoked, and how many scheduled delayed-close
callbacks are outstanding) forms `PanelState`; each inbound frame is either a
valid parsed `ProgressEvent` or `malformed` (JSON.parse threw); `handleMessage`
is the `onmessage` body; `fireDelayedClose` is one scheduled delayed-close
callback executing (`if (eventSource) eventSource.close()`).
-/

/-- One parsed stream message, per the inbound frame contract:
`{ "type": string, "message": string, "timestamp": number }`. -/
structure ProgressEvent where
  type : String
  message : String
  timestamp : Int
  deriving DecidableEq, Repr

/-- One inbound frame: either it parses as JSON into a `ProgressEvent`, or
`JSON.parse` throws and the `catch` block swallows the error. -/
inductive Frame where
  | valid (data : ProgressEvent) : Frame
  | malformed : Frame
  deriving DecidableEq, Repr

/-- The component state: the four reactive refs of the `setup()` body plus
connection bookkeeping.  `eventSourceSome` is whether the `eventSource`
variable is non-null; `closeCalls` counts invocations of `eventSource.close()`;
`pendingCloses` counts scheduled `setTimeout` delayed-close callbacks not yet
fired. -/
structure PanelState where
  steps : List ProgressEvent
  isProcessing : Bool
  isComplete : Bool
  hasError : Bool
  eventSourceSome : Bool
  closeCalls : Nat
  pendingCloses : Nat
  deriving DecidableEq, Repr

/-- State right after `connectProgressStream()` has assigned `eventSource`:
empty steps, all flags false, connection reference non-null, no close yet,
no pending timer. -/
def initState : PanelState :=
  { steps := []
  , isProcessing := false
  , isComplete := false
  , hasError := false
  , eventSourceSome := true
  , closeCalls := 0
  , pendingCloses := 0 }

/-- The `eventSource.onmessage` handler body.  A malformed frame is caught and
only logged (state untouched).  Otherwise the switch on `data.type`:
`start` clears the step list, sets the flags, and pushes the event;
`step` appends; `complete` appends, flips the flags, and schedules a delayed
close; `error` appends, flips the flags, and closes immediately when the
connection reference is non-null.  An unknown type falls through the switch. -/
def handleMessage (s : PanelState) (frame : Frame) : PanelState :=
  match frame with
  | Frame.malformed => s
  | Frame.valid data =>
    if data.type = "start" then
      { s with steps := [data]
             , isProcessing := true
             , isComplete := false
             , hasError := false }
    else if data.type = "step" then
      { s with steps := s.steps ++ [data] }
    else if data.type = "complete" then
      { s with steps := s.steps ++ [data]
             , isProcessing := false
             , isComplete := true
             , pendingCloses := s.pendingCloses + 1 }
    else if data.type = "error" then
      { s with steps := s.steps ++ [data]
             , isProcessing := false
             , hasError := true
             , closeCalls := if s.eventSourceSome then s.closeCalls + 1 else s.closeCalls }
    else s

/-- One scheduled delayed-close callback fires: `if (eventSource)
eventSource.close()`.  The callback nulls nothing and checks only that the
reference is non-null. -/
def fireDelayedClose (s : PanelState) : PanelState :=
  if s.pendingCloses = 0 then s
  else
    { s with pendingCloses := s.pendingCloses - 1
           , closeCalls := if s.eventSourceSome then s.closeCalls + 1 else s.closeCalls }

/-- The `reset()` function: clears the four reactive refs only. -/
def reset (s : PanelState) : PanelState :=
  { s with steps := []
         , isProcessing := false
         , isComplete := false
         , hasError := false }

/-- The `statusClass` computed value: priority `hasError` over `isComplete`
over `isProcessing` over idle. -/
def statusClass (s : PanelState) : String :=
  if s.hasError then "status-error"
  else if s.isComplete then "status-complete"
  else if s.isProcessing then "status-processing"
  else "status-idle"

/-- The `statusText` computed value, same priority as `statusClass`. -/
def statusText (s : PanelState) : String :=
  if s.hasError then "❌ 失败"
  else if s.isComplete then "✅ 完成"
  else if s.isProcessing then "🔄 处理中"
  else "⏸️ 等待"

/-- Fold the handler over a list of frames. -/
def processFrames (s : PanelState) (frames : List Frame) : PanelState :=
  frames.foldl handleMessage s

/-- The file-link regex `📄 \[([^\]]+)\]\(([^)]+)\)` of `formatMessage`,
matched at the head of `cs`: the literal prefix `📄 [`, one or more non-`]`
characters (captured as the label), the literal `](`, one or more non-`)`
characters (captured as the path), and the literal `)`.  Each character class
excludes its closing character, so the greedy classes admit exactly one
candidate length and the match, when it exists, is unique.  Returns the two
captures and the remainder after the match. -/
def tryMatchLink (cs : List Char) : Option (List Char × List Char × List Char) :=
  match cs with
  | c0 :: c1 :: c2 :: rest =>
    if c0 = '📄' ∧ c1 = ' ' ∧ c2 = '[' then
      match rest.dropWhile (fun c => c ≠ ']') with
      | b1 :: b2 :: rest2 =>
        if rest.takeWhile (fun c => c ≠ ']') ≠ [] ∧ b1 = ']' ∧ b2 = '(' then
          match rest2.dropWhile (fun c => c ≠ ')') with
          | d1 :: rest3 =>
            if rest2.takeWhile (fun c => c ≠ ')') ≠ [] ∧ d1 = ')' then
              some (rest.takeWhile (fun c => c ≠ ']'),
                    rest2.takeWhile (fun c => c ≠ ')'), rest3)
            else none
          | [] => none
        else none
      | _ => none
    else none
  | _ => none

/-- The replacement template
`<a href="http://localhost:8765$2" target="_blank" class="file-link">📄 $1</a>`
of `formatMessage`, with the path capture `$2` and the label capture `$1`
substituted in. -/
def fileLink (label path : List Char) : List Char :=
  "<a href=\"http://localhost:8765".data ++ path ++
    "\" target=\"_blank\" class=\"file-link\">📄 ".data ++ label ++ "</a>".data

/-- The global (`/g`) file-link replace of `formatMessage`: scan left to
right; wherever the pattern matches, emit the replacement and continue after
the match (the replacement is not rescanned), otherwise keep the character
and move one position. -/
def replaceLinks (cs : List Char) : List Char :=
  match h : tryMatchLink cs with
  | some (label, path, rest) => fileLink label path ++ replaceLinks rest
  | none =>
    match cs with
    | [] => []
    | c :: cs' => c :: replaceLinks cs'
termination_by cs.length
decreasing_by
  · rw [tryMatchLink.eq_def] at h
    split at h
    · split at h
      · split at h
        · split at h
          · split at h
            · split at h
              · rename_i cA cB cC restA hpre scrX b1 b2 rest2 heq1 hmid
                  scrY d1 rest3 heq2 hfin
                simp only [Option.some.injEq, Prod.mk.injEq] at h
                obtain ⟨h5, h6, h7⟩ := h
                subst h7
                have h1 : rest2.length + 2 ≤ restA.length := by
                  have hs :=
                    (List.dropWhile_sublist (l := restA)
                      (fun c => c ≠ ']')).length_le
                  rw [heq1] at hs
                  simpa using hs
                have h2 : rest3.length + 1 ≤ rest2.length := by
                  have hs :=
                    (List.dropWhile_sublist (l := rest2)
                      (fun c => c ≠ ')')).length_le
                  rw [heq2] at hs
                  simpa using hs
                simp only [List.length_cons]
                omega
              · cases h
            · cases h
          · cases h
        · cases h
      · cases h
    · cases h
  · simp only [List.length_cons]
    omega

/-- The second `.replace` call of `formatMessage`: every `\n` becomes
`<br>`. -/
def replaceNewlines (cs : List Char) : List Char :=
  cs.flatMap (fun c => if c = '\n' then "<br>".data else [c])

/-- The `formatMessage` helper of the component: rewrite every file-link
token into an anchor tag with the fixed backend origin
`http://localhost:8765` prefixed to the captured path, then convert line
breaks to `<br>`. -/
def formatMessage (message : String) : String :=
  ⟨replaceNewlines (replaceLinks message.data)⟩

/-- The stream invariant of the spec's data model, as a checker: exactly one
`start` opens a job and exactly one of `complete` / `error` closes it.
`jobOpen` tracks whether a job is currently open: `start` only when no job is
open, `step` only inside a job, a terminal event only inside a job (closing
it); a trailing open job is allowed. -/
def wellFormedFrom (jobOpen : Bool) : List ProgressEvent → Bool
  | [] => true
  | e :: es =>
    if e.type = "start" then !jobOpen && wellFormedFrom true es
    else if e.type = "step" then jobOpen && wellFormedFrom jobOpen es
    else if e.type = "complete" || e.type = "error" then
      jobOpen && wellFormedFrom false es
    else false

/-- Checks that along the whole trace of handling `es` from `s`, the flags
`isComplete` and `hasError` are never both true in any reached state. -/
def flagsExclusiveTrace (s : PanelState) : List ProgressEvent → Bool
  | [] => true
  | e :: es =>
    !((handleMessage s (Frame.valid e)).isComplete &&
        (handleMessage s (Frame.valid e)).hasError) &&
      flagsExclusiveTrace (handleMessage s (Frame.valid e)) es

theorem flagsExclusiveTrace_aux (es : List ProgressEvent) :
    ∀ (s : PanelState) (jobOpen : Bool),
      wellFormedFrom jobOpen es = true →
      (jobOpen = true → s.isComplete = false ∧ s.hasError = false) →
      (s.isComplete && s.hasError) = false →
      flagsExclusiveTrace s es = true := by
  induction es with
  | nil => intro s jobOpen _ _ _; rfl
  | cons e es ih =>
    intro s jobOpen hwf hopen hx
    by_cases hstart : e.type = "start"
    · rw [wellFormedFrom, if_pos hstart, Bool.and_eq_true] at hwf
      have hJ : jobOpen = false := by
        rcases hwf.1 with h; cases jobOpen <;> simp_all
      rw [flagsExclusiveTrace, Bool.and_eq_true]
      constructor
      · simp [handleMessage, hstart]
      · exact ih _ true hwf.2 (fun _ => by simp [handleMessage, hstart])
          (by simp [handleMessage, hstart])
    · by_cases hstep : e.type = "step"
      · rw [wellFormedFrom, if_neg hstart, if_pos hstep,
          Bool.and_eq_true] at hwf
        have hJ : jobOpen = true := hwf.1
        have hflags := hopen hJ
        rw [flagsExclusiveTrace, Bool.and_eq_true]
        constructor
        · simp [handleMessage, hstart, hstep, hflags.1, hflags.2]
        · refine ih _ jobOpen hwf.2 (fun _ => ?_) ?_
          · simpa [handleMessage, hstart, hstep] using hflags
          · simp [handleMessage, hstart, hstep, hflags.1, hflags.2]
      · by_cases hterm : e.type = "complete" || e.type = "error"
        · rw [wellFormedFrom, if_neg hstart, if_neg hstep, if_pos hterm,
            Bool.and_eq_true] at hwf
          have hflags := hopen hwf.1
          have hterm' : e.type = "complete" ∨ e.type = "error" := by
            simpa using hterm
          have hx' : ((handleMessage s (Frame.valid e)).isComplete &&
              (handleMessage s (Frame.valid e)).hasError) = false := by
            rcases hterm' with hc' | he'
            · simp [handleMessage, hstart, hstep, hc', hflags.2]
            · by_cases hc' : e.type = "complete"
              · simp [handleMessage, hstart, hstep, hc', hflags.2]
              · simp [handleMessage, hstart, hstep, hc', he', hflags.1]
          rw [flagsExclusiveTrace, Bool.and_eq_true]
          exact ⟨by simp [hx'], ih _ false hwf.2 (fun h => by cases h) hx'⟩
        · rw [wellFormedFrom, if_neg hstart, if_neg hstep,
            if_neg hterm] at hwf
          cases hwf

/-- C5: for every event sequence satisfying the stream invariant (exactly one
`start` opens a job and exactly one of `complete` / `error` closes it), the
flags `isComplete` and `hasError` are never both true in any state the
consumer reaches from the initial state: they are mutually exclusive terminal
flags. -/
theorem complete_error_mutually_exclusive (es : List ProgressEvent)
    (hwf : wellFormedFrom false es = true) :
    flagsExclusiveTrace initState es = true :=
  flagsExclusiveTrace_aux es initState false hwf
    (fun h => by cases h) (by decide)

theorem complete_error_mutually_exclusive_witness :
    wellFormedFrom false
      [⟨"start", "j1", 0⟩, ⟨"step", "s", 1⟩, ⟨"error", "e", 2⟩,
       ⟨"start", "j2", 3⟩, ⟨"complete", "c", 4⟩] = true ∧
    flagsExclusiveTrace initState
      [⟨"start", "j1", 0⟩, ⟨"step", "s", 1⟩, ⟨"error", "e", 2⟩,
       ⟨"start", "j2", 3⟩, ⟨"complete", "c", 4⟩] = true :=
  ⟨by decide, complete_error_mutually_exclusive _ (by decide)⟩

/-- C6 counterexample: a `complete` schedules a delayed close; a new `start`
arriving during the 3-second window does NOT cancel or guard the pending
timer.  Concretely, after `[start, complete, start]` from the initial state
the new job is processing, one delayed-close callback is still pending, and
when it fires it closes the connection the new job is using (`closeCalls`
goes from 0 to 1), because the callback's only guard is that the
`eventSource` reference is non-null — which it still is. -/
theorem stale_delayed_close_fires_counterexample :
    (processFrames initState
      [Frame.valid ⟨"start", "j1", 0⟩, Frame.valid ⟨"complete", "c", 1⟩,
       Frame.valid ⟨"start", "j2", 2⟩]).isProcessing = true ∧
    (processFrames initState
      [Frame.valid ⟨"start", "j1", 0⟩, Frame.valid ⟨"complete", "c", 1⟩,
       Frame.valid ⟨"start", "j2", 2⟩]).pendingCloses = 1 ∧
    (processFrames initState
      [Frame.valid ⟨"start", "j1", 0⟩, Frame.valid ⟨"complete", "c", 1⟩,
       Frame.valid ⟨"start", "j2", 2⟩]).closeCalls = 0 ∧
    (fireDelayedClose (processFrames initState
      [Frame.valid ⟨"start", "j1", 0⟩, Frame.valid ⟨"complete", "c", 1⟩,
       Frame.valid ⟨"start", "j2", 2⟩])).closeCalls = 1 := by
  decide

/-- C6 amended: the code does not guard the delayed-close callback.  In any
state with a pending delayed close and a live connection reference, a new
`start` leaves the timer pending and the reference untouched, and when the
stale callback then fires it invokes `close()` on the connection now reused
by the new job. -/
theorem stale_delayed_close_fires (s : PanelState) (e : ProgressEvent)
    (ht : e.type = "start") (hw : s.pendingCloses ≠ 0)
    (hes : s.eventSourceSome = true) :
    (handleMessage s (Frame.valid e)).pendingCloses = s.pendingCloses ∧
    (handleMessage s (Frame.valid e)).eventSourceSome = true ∧
    (handleMessage s (Frame.valid e)).isProcessing = true ∧
    (fireDelayedClose (handleMessage s (Frame.valid e))).closeCalls =
      s.closeCalls + 1 := by
  simp [handleMessage, fireDelayedClose, ht, hw, hes]

theorem stale_delayed_close_fires_witness :
    (fireDelayedClose (handleMessage
      (processFrames initState
        [Frame.valid ⟨"start", "j1", 0⟩, Frame.valid ⟨"complete", "c", 1⟩])
      (Frame.valid ⟨"start", "j2", 2⟩))).closeCalls =
      (processFrames initState
        [Frame.valid ⟨"start", "j1", 0⟩,
         Frame.valid ⟨"complete", "c", 1⟩]).closeCalls + 1 :=
  (stale_delayed_close_fires
    (processFrames initState
      [Frame.valid ⟨"start", "j1", 0⟩, Frame.valid ⟨"complete", "c", 1⟩])
    ⟨"start", "j2", 2⟩ rfl (by decide) (by decide)).2.2.2

/-- C1: for an event sequence `[start, step, step, complete]` delivered from
the initial idle state, the step list ends up being exactly those four events
in arrival order, `isProcessing` is true after the `start` and after each
`step` and false after the `complete`, and after the `complete` `isComplete`
is true and `hasError` is false. -/
theorem start_step_step_complete_trace
    (e1 e2 e3 e4 : ProgressEvent)
    (h1 : e1.type = "start") (h2 : e2.type = "step")
    (h3 : e3.type = "step") (h4 : e4.type = "complete") :
    (handleMessage initState (Frame.valid e1)).isProcessing = true ∧
    (handleMessage (handleMessage initState (Frame.valid e1))
      (Frame.valid e2)).isProcessing = true ∧
    (handleMessage (handleMessage (handleMessage initState (Frame.valid e1))
      (Frame.valid e2)) (Frame.valid e3)).isProcessing = true ∧
    (handleMessage (handleMessage (handleMessage (handleMessage initState
      (Frame.valid e1)) (Frame.valid e2)) (Frame.valid e3))
      (Frame.valid e4)).steps = [e1, e2, e3, e4] ∧
    (handleMessage (handleMessage (handleMessage (handleMessage initState
      (Frame.valid e1)) (Frame.valid e2)) (Frame.valid e3))
      (Frame.valid e4)).isProcessing = false ∧
    (handleMessage (handleMessage (handleMessage (handleMessage initState
      (Frame.valid e1)) (Frame.valid e2)) (Frame.valid e3))
      (Frame.valid e4)).isComplete = true ∧
    (handleMessage (handleMessage (handleMessage (handleMessage initState
      (Frame.valid e1)) (Frame.valid e2)) (Frame.valid e3))
      (Frame.valid e4)).hasError = false := by
  simp [handleMessage, initState, h1, h2, h3, h4]

theorem start_step_step_complete_trace_witness :
    (handleMessage (handleMessage (handleMessage (handleMessage initState
      (Frame.valid ⟨"start", "begin", 0⟩)) (Frame.valid ⟨"step", "s1", 1⟩))
      (Frame.valid ⟨"step", "s2", 2⟩))
      (Frame.valid ⟨"complete", "done", 3⟩)).steps =
      [⟨"start", "begin", 0⟩, ⟨"step", "s1", 1⟩, ⟨"step", "s2", 2⟩,
       ⟨"complete", "done", 3⟩] :=
  (start_step_step_complete_trace ⟨"start", "begin", 0⟩ ⟨"step", "s1", 1⟩
    ⟨"step", "s2", 2⟩ ⟨"complete", "done", 3⟩ rfl rfl rfl rfl).2.2.2.1

/-- C2: a `start` event arriving in any state (in particular after a prior
job ended with `complete`) resets the step list to exactly `[the new start]`,
sets `isProcessing`, and clears `isComplete` and `hasError`; prior steps are
discarded, not appended. -/
theorem start_resets_step_list (s : PanelState) (e : ProgressEvent)
    (h : e.type = "start") :
    (handleMessage s (Frame.valid e)).steps = [e] ∧
    (handleMessage s (Frame.valid e)).isProcessing = true ∧
    (handleMessage s (Frame.valid e)).isComplete = false ∧
    (handleMessage s (Frame.valid e)).hasError = false := by
  simp [handleMessage, h]

theorem start_resets_step_list_witness :
    (handleMessage
      (processFrames initState
        [Frame.valid ⟨"start", "job1", 0⟩, Frame.valid ⟨"step", "s1", 1⟩,
         Frame.valid ⟨"complete", "done", 2⟩])
      (Frame.valid ⟨"start", "job2", 3⟩)).steps = [⟨"start", "job2", 3⟩] :=
  (start_resets_step_list
    (processFrames initState
      [Frame.valid ⟨"start", "job1", 0⟩, Frame.valid ⟨"step", "s1", 1⟩,
       Frame.valid ⟨"complete", "done", 2⟩])
    ⟨"start", "job2", 3⟩ rfl).1

/-- C3: for a sequence `[start, step, error]` from the initial state, after
the `error` event `hasError` is true, `isProcessing` is false, the error
event is appended to the step list, and `eventSource.close()` has been
invoked exactly once with no delayed-close timer scheduled. -/
theorem start_step_error_closes_once
    (e1 e2 e3 : ProgressEvent)
    (h1 : e1.type = "start") (h2 : e2.type = "step") (h3 : e3.type = "error") :
    (processFrames initState
      [Frame.valid e1, Frame.valid e2, Frame.valid e3]).hasError = true ∧
    (processFrames initState
      [Frame.valid e1, Frame.valid e2, Frame.valid e3]).isProcessing = false ∧
    (processFrames initState
      [Frame.valid e1, Frame.valid e2, Frame.valid e3]).steps = [e1, e2, e3] ∧
    (processFrames initState
      [Frame.valid e1, Frame.valid e2, Frame.valid e3]).closeCalls = 1 ∧
    (processFrames initState
      [Frame.valid e1, Frame.valid e2, Frame.valid e3]).pendingCloses = 0 := by
  simp [processFrames, handleMessage, initState, h1, h2, h3]

theorem start_step_error_closes_once_witness :
    (processFrames initState
      [Frame.valid ⟨"start", "begin", 0⟩, Frame.valid ⟨"step", "s1", 1⟩,
       Frame.valid ⟨"error", "boom", 2⟩]).closeCalls = 1 :=
  (start_step_error_closes_once ⟨"start", "begin", 0⟩ ⟨"step", "s1", 1⟩
    ⟨"error", "boom", 2⟩ rfl rfl rfl).2.2.2.1

/-- C4: a malformed frame arriving between two valid `step` events while the
consumer is processing leaves the state completely untouched (the frame is
only logged and discarded): the step-list length, flags, connection reference,
close count, and pending timers are unchanged, the phase stays processing,
and the surrounding `step` events are appended as if the malformed frame had
never arrived. -/
theorem malformed_frame_discarded (s : PanelState) (e1 e2 : ProgressEvent)
    (hp : s.isProcessing = true)
    (h1 : e1.type = "step") (h2 : e2.type = "step") :
    handleMessage (handleMessage s (Frame.valid e1)) Frame.malformed =
      handleMessage s (Frame.valid e1) ∧
    (handleMessage (handleMessage s (Frame.valid e1))
      Frame.malformed).steps.length =
      (handleMessage s (Frame.valid e1)).steps.length ∧
    (handleMessage (handleMessage s (Frame.valid e1))
      Frame.malformed).isProcessing = true ∧
    (handleMessage (handleMessage (handleMessage s (Frame.valid e1))
      Frame.malformed) (Frame.valid e2)).steps = s.steps ++ [e1, e2] := by
  refine ⟨rfl, rfl, ?_, ?_⟩
  · simp [handleMessage, h1, hp]
  · simp [handleMessage, h1, h2]

theorem malformed_frame_discarded_witness :
    (handleMessage
      (handleMessage
        (handleMessage
          (handleMessage initState (Frame.valid ⟨"start", "begin", 0⟩))
          (Frame.valid ⟨"step", "s1", 1⟩))
        Frame.malformed)
      (Frame.valid ⟨"step", "s2", 2⟩)).steps =
      (handleMessage initState (Frame.valid ⟨"start", "begin", 0⟩)).steps ++
        [⟨"step", "s1", 1⟩, ⟨"step", "s2", 2⟩] :=
  (malformed_frame_discarded
    (handleMessage initState (Frame.valid ⟨"start", "begin", 0⟩))
    ⟨"step", "s1", 1⟩ ⟨"step", "s2", 2⟩ (by decide) rfl rfl).2.2.2

/-- C8: `reset()` called in any state yields empty steps and all-false flags,
and touches neither the connection reference nor the close count nor the
pending delayed-close timers. -/
theorem reset_clears_without_touching_connection (s : PanelState) :
    (reset s).steps = [] ∧
    (reset s).isProcessing = false ∧
    (reset s).isComplete = false ∧
    (reset s).hasError = false ∧
    (reset s).eventSourceSome = s.eventSourceSome ∧
    (reset s).closeCalls = s.closeCalls ∧
    (reset s).pendingCloses = s.pendingCloses := by
  simp [reset]

/-- C9: `statusClass` always yields exactly one of the four badge values, and
the value is selected by the priority order error > complete > processing >
idle: `status-error` iff `hasError`; `status-complete` iff `isComplete` and
not `hasError`; `status-processing` iff `isProcessing` and neither terminal
flag; `status-idle` iff no flag is set. -/
theorem statusClass_priority (s : PanelState) :
    (statusClass s = "status-error" ∨ statusClass s = "status-complete" ∨
     statusClass s = "status-processing" ∨ statusClass s = "status-idle") ∧
    (statusClass s = "status-error" ↔ s.hasError = true) ∧
    (statusClass s = "status-complete" ↔
      (s.hasError = false ∧ s.isComplete = true)) ∧
    (statusClass s = "status-processing" ↔
      (s.hasError = false ∧ s.isComplete = false ∧ s.isProcessing = true)) ∧
    (statusClass s = "status-idle" ↔
      (s.hasError = false ∧ s.isComplete = false ∧ s.isProcessing = false)) := by
  unfold statusClass
  rcases hE : s.hasError <;> rcases hC : s.isComplete <;>
    rcases hP : s.isProcessing <;> simp

/-- C10: a `step` event arriving in the idle phase (in particular in the
initial state, with no preceding `start`) is appended to the step list while
`isProcessing` stays false and the status stays idle — the orphan step is
neither dropped nor treated as an implicit job start. -/
theorem orphan_step_kept_in_idle (s : PanelState) (e : ProgressEvent)
    (hp : s.isProcessing = false) (hc : s.isComplete = false)
    (he : s.hasError = false) (ht : e.type = "step") :
    (handleMessage s (Frame.valid e)).steps = s.steps ++ [e] ∧
    (handleMessage s (Frame.valid e)).isProcessing = false ∧
    (handleMessage s (Frame.valid e)).isComplete = false ∧
    (handleMessage s (Frame.valid e)).hasError = false ∧
    statusClass (handleMessage s (Frame.valid e)) = "status-idle" := by
  simp [handleMessage, statusClass, ht, hp, hc, he]

theorem orphan_step_kept_in_idle_witness :
    (handleMessage initState (Frame.valid ⟨"step", "orphan", 5⟩)).steps =
      [⟨"step", "orphan", 5⟩] ∧
    statusClass (handleMessage initState (Frame.valid ⟨"step", "orphan", 5⟩)) =
      "status-idle" := by
  have h := orphan_step_kept_in_idle initState ⟨"step", "orphan", 5⟩
    rfl rfl rfl rfl
  exact ⟨h.1, h.2.2.2.2⟩

theorem takeWhile_append_stop (q : Char → Bool) (l : List Char) (x : Char)
    (r : List Char) (hl : ∀ c ∈ l, q c = true) (hx : q x = false) :
    (l ++ x :: r).takeWhile q = l := by
  induction l with
  | nil => simp [List.takeWhile_cons, hx]
  | cons a l ih =>
    have ha : q a = true := hl a (by simp)
    simp only [List.cons_append, List.takeWhile_cons, ha, if_pos]
    exact congrArg (a :: ·) (ih (fun c hc => hl c (by simp [hc])))

theorem dropWhile_append_stop (q : Char → Bool) (l : List Char) (x : Char)
    (r : List Char) (hl : ∀ c ∈ l, q c = true) (hx : q x = false) :
    (l ++ x :: r).dropWhile q = x :: r := by
  induction l with
  | nil => simp [List.dropWhile_cons, hx]
  | cons a l ih =>
    have ha : q a = true := hl a (by simp)
    simp only [List.cons_append, List.dropWhile_cons, ha, if_pos]
    exact ih (fun c hc => hl c (by simp [hc]))

theorem tryMatchLink_token (label path rest : List Char) (hl : label ≠ [])
    (hl2 : ∀ c ∈ label, c ≠ ']') (hp : path ≠ []) (hp2 : ∀ c ∈ path, c ≠ ')') :
    tryMatchLink
        ('📄' :: ' ' :: '[' ::
          (label ++ ']' :: '(' :: (path ++ ')' :: rest))) =
      some (label, path, rest) := by
  have htl :
      (label ++ ']' :: '(' :: (path ++ ')' :: rest)).takeWhile
        (fun c => c ≠ ']') = label :=
    takeWhile_append_stop _ _ _ _ (fun c hc => by simp [hl2 c hc]) (by simp)
  have hdl :
      (label ++ ']' :: '(' :: (path ++ ')' :: rest)).dropWhile
        (fun c => c ≠ ']') = ']' :: '(' :: (path ++ ')' :: rest) :=
    dropWhile_append_stop _ _ _ _ (fun c hc => by simp [hl2 c hc]) (by simp)
  have htp : (path ++ ')' :: rest).takeWhile (fun c => c ≠ ')') = path :=
    takeWhile_append_stop _ _ _ _ (fun c hc => by simp [hp2 c hc]) (by simp)
  have hdp : (path ++ ')' :: rest).dropWhile (fun c => c ≠ ')') = ')' :: rest :=
    dropWhile_append_stop _ _ _ _ (fun c hc => by simp [hp2 c hc]) (by simp)
  rw [tryMatchLink.eq_def]
  simp only [htl, hdl, htp, hdp]
  simp [hl, hp]

theorem tryMatchLink_not_emoji (c : Char) (cs : List Char) (hc : c ≠ '📄') :
    tryMatchLink (c :: cs) = none := by
  rw [tryMatchLink.eq_def]
  split
  · rename_i c0 c1 c2 rest heq
    injection heq with h1 h2
    subst h1
    rw [if_neg (fun hand => hc hand.1)]
  · rfl

theorem replaceLinks_nil : replaceLinks [] = [] := by
  rw [replaceLinks.eq_def]
  rfl

theorem replaceLinks_cons_not_emoji (c : Char) (cs : List Char)
    (hc : c ≠ '📄') : replaceLinks (c :: cs) = c :: replaceLinks cs := by
  rw [replaceLinks.eq_def]
  split
  · rename_i label path rest h
    rw [tryMatchLink_not_emoji c cs hc] at h
    cases h
  · rfl

theorem replaceLinks_token (label path rest : List Char) (hl : label ≠ [])
    (hl2 : ∀ c ∈ label, c ≠ ']') (hp : path ≠ []) (hp2 : ∀ c ∈ path, c ≠ ')') :
    replaceLinks
        ('📄' :: ' ' :: '[' ::
          (label ++ ']' :: '(' :: (path ++ ')' :: rest))) =
      fileLink label path ++ replaceLinks rest := by
  rw [replaceLinks.eq_def]
  split
  · rename_i label' path' rest' h
    rw [tryMatchLink_token label path rest hl hl2 hp hp2] at h
    simp only [Option.some.injEq, Prod.mk.injEq] at h
    obtain ⟨h1, h2, h3⟩ := h
    subst h1
    subst h2
    subst h3
    rfl
  · rename_i h
    rw [tryMatchLink_token label path rest hl hl2 hp hp2] at h
    cases h

theorem replaceLinks_append_no_emoji (pre tail : List Char)
    (hpre : '📄' ∉ pre) :
    replaceLinks (pre ++ tail) = pre ++ replaceLinks tail := by
  induction pre with
  | nil => simp
  | cons c pre ih =>
    have hc : c ≠ '📄' := fun h => hpre (h ▸ List.mem_cons_self c pre)
    simp only [List.cons_append]
    rw [replaceLinks_cons_not_emoji c _ hc,
      ih (fun h => hpre (List.mem_cons_of_mem c h))]

/-- C7: `formatMessage` rewrites the file-link token `📄 [label](path)`
found in the message into the anchor tag whose href is the backend origin
`http://localhost:8765` prefixed to the path and whose visible text is
`📄 label` (so it contains the label), and converts line breaks to `<br>`
after the link rewrite.  The prefix of the message before the token carries
no `📄` (so the shown token is the leftmost match) and the rewrite continues
over the rest of the message. -/
theorem formatMessage_rewrites_file_link (pre post label path : List Char)
    (hpre : '📄' ∉ pre) (hl : label ≠ []) (hl2 : ∀ c ∈ label, c ≠ ']')
    (hp : path ≠ []) (hp2 : ∀ c ∈ path, c ≠ ')') :
    formatMessage
        ⟨pre ++ '📄' :: ' ' :: '[' ::
          (label ++ ']' :: '(' :: (path ++ ')' :: post))⟩ =
      ⟨replaceNewlines (pre ++ fileLink label path ++ replaceLinks post)⟩ := by
  unfold formatMessage
  congr 1
  rw [show (String.mk (pre ++ '📄' :: ' ' :: '[' ::
      (label ++ ']' :: '(' :: (path ++ ')' :: post)))).data =
      pre ++ '📄' :: ' ' :: '[' ::
        (label ++ ']' :: '(' :: (path ++ ')' :: post)) from rfl]
  rw [replaceLinks_append_no_emoji pre _ hpre,
    replaceLinks_token label path post hl hl2 hp hp2]
  simp [List.append_assoc]

theorem formatMessage_rewrites_file_link_witness :
    formatMessage "📄 [report.docx](/files/abc)" =
      "<a href=\"http://localhost:8765/files/abc\" target=\"_blank\" class=\"file-link\">📄 report.docx</a>" := by
  have h := formatMessage_rewrites_file_link [] [] "report.docx".data
    "/files/abc".data (by decide) (by decide) (by decide) (by decide)
    (by decide)
  rw [replaceLinks_nil] at h
  have e1 : ("📄 [report.docx](/files/abc)" : String) =
      ⟨[] ++ '📄' :: ' ' :: '[' ::
        ("report.docx".data ++ ']' :: '(' ::
          ("/files/abc".data ++ ')' :: []))⟩ := by
    decide
  rw [e1, h]
  decide
